import Mathlib

/-!
Verification of the free-list memory allocator in `src/src/alloc.c`
(`split`, `find_prev`, `find_next`, `coalesce`, `do_alloc`, `tumalloc`,
`tucalloc`, `turealloc`, `tufree`).

The C code is shallowly embedded over a byte-addressed memory
`Mem := Nat → Nat` together with an allocator state holding the free-list
head `HEAD`, the current program break and an OS limit for `sbrk`.
Machine words are 64-bit `size_t` values kept as `Nat` with explicit
reduction modulo `2 ^ 64` wherever the C arithmetic can wrap.  A null
pointer is the address `0`; the heap origin is taken positive.  Loops over
the in-memory free list are given explicit fuel; theorems either supply
enough fuel or hold for all fuel values.
-/

/-- `2 ^ 64`, the modulus of `size_t` / pointer arithmetic (LP64). -/
def W64 : Nat := 18446744073709551616

/-- `ALIGNMENT` from `alloc.c` line 9. -/
def ALIGNMENT : Nat := 16

/-- Modelled from the spec: the repository's `alloc.h` (declaring
`free_block`) is not present under `src/`; the spec's data model (§3) gives
a header of two word-sized fields, `size : size_t` and
`next : free_block *`, so on the evident LP64 target
`sizeof(free_block) = 16`.  This matches every use in `alloc.c`
(`block->size` at offset 0, `block->next` at offset 8). -/
def SIZEOF_FREE_BLOCK : Nat := 16

/-- `sizeof(size_t)` on the evident LP64 target: 8 bytes. -/
def SIZEOF_SIZE_T : Nat := 8

/-- Byte-addressed memory; only the low 8 bits of each cell are meaningful
and every store masks to a byte. -/
abbrev Mem : Type := Nat → Nat

/-- Little-endian load of a 64-bit word at address `a`. -/
def readW (m : Mem) (a : Nat) : Nat :=
  m a % 256
  + 256 * (m (a + 1) % 256)
  + 65536 * (m (a + 2) % 256)
  + 16777216 * (m (a + 3) % 256)
  + 4294967296 * (m (a + 4) % 256)
  + 1099511627776 * (m (a + 5) % 256)
  + 281474976710656 * (m (a + 6) % 256)
  + 72057594037927936 * (m (a + 7) % 256)

/-- Little-endian store of a 64-bit word at address `a`. -/
def writeW (m : Mem) (a v : Nat) : Mem := fun x =>
  if x = a then v % 256
  else if x = a + 1 then v / 256 % 256
  else if x = a + 2 then v / 65536 % 256
  else if x = a + 3 then v / 16777216 % 256
  else if x = a + 4 then v / 4294967296 % 256
  else if x = a + 5 then v / 1099511627776 % 256
  else if x = a + 6 then v / 281474976710656 % 256
  else if x = a + 7 then v / 72057594037927936 % 256
  else m x

/-- `memset(a, v, n)`: the bytes of `[a, a + n)` all become `v` (masked to
a byte); extensional model of the libc routine used by `tucalloc`. -/
def memset (m : Mem) (a v n : Nat) : Mem := fun x =>
  if a ≤ x ∧ x < a + n then v % 256 else m x

/-- `memcpy(dst, src, n)`: the bytes of `[src, src + n)` are copied to
`[dst, dst + n)`; extensional model of the libc routine used by
`turealloc` (the regions are disjoint at its call site). -/
def memcpy (m : Mem) (dst src n : Nat) : Mem := fun x =>
  if dst ≤ x ∧ x < dst + n then m (src + (x - dst)) % 256 else m x

/-- Allocator state: the byte memory, the free-list head `HEAD`
(`alloc.c` line 11, `0` = `NULL`), the current program break `top`, and
the OS bound `limit` past which `sbrk` fails. -/
structure AllocState where
  mem : Mem
  head : Nat
  top : Nat
  limit : Nat

/-- `size = (size + ALIGNMENT - 1) & ~(ALIGNMENT - 1)` from `tumalloc`
(line 156): the `size_t` addition wraps modulo `2 ^ 64` and the mask
`~15` clears the low four bits, i.e. rounds down to a multiple of 16. -/
def align (s : Nat) : Nat := (s + 15) % W64 / 16 * 16

/-- `split` (`alloc.c` lines 20–34).  The block's `size` field is read at
`block`, its `next` field at `block + 8`; the remainder block is placed at
`block + size + sizeof(free_block)`.  Returns the C return value (`none`
for `NULL`) together with the memory.  The C parameter `int size` is
modelled as `Nat` (the claims concern non-negative sizes). -/
def split (m : Mem) (block : Nat) (size : Nat) : Option Nat × Mem :=
  if readW m block < (size + SIZEOF_FREE_BLOCK) % W64 then (none, m)
  else
    let split_pnt := (block + size + SIZEOF_FREE_BLOCK) % W64
    let m1 := writeW m split_pnt (readW m block - size - SIZEOF_FREE_BLOCK)
    let m2 := writeW m1 (split_pnt + 8) (readW m1 (block + 8))
    let m3 := writeW m2 block size
    (some block, m3)

/-- `find_prev` (`alloc.c` lines 42–51): scan the free list from `curr`
for a node whose 16-byte-header end `curr + curr->size +
sizeof(free_block)` equals `block`.  Fuel bounds the loop. -/
def find_prev (m : Mem) (block : Nat) : Nat → Nat → Option Nat
  | 0, _ => none
  | fuel + 1, curr =>
    if curr = 0 then none
    else if (curr + readW m curr + SIZEOF_FREE_BLOCK) % W64 = block then some curr
    else find_prev m block fuel (readW m (curr + 8))

/-- The loop of `find_next` (`alloc.c` lines 63–67), with the block end
precomputed as in the source. -/
def find_next_loop (m : Mem) (block_end : Nat) : Nat → Nat → Option Nat
  | 0, _ => none
  | fuel + 1, curr =>
    if curr = 0 then none
    else if curr = block_end then some curr
    else find_next_loop m block_end fuel (readW m (curr + 8))

/-- `find_next` (`alloc.c` lines 59–69): `block_end = block + block->size
+ sizeof(free_block)`, then scan the free list from `head` for a node at
exactly that address. -/
def find_next (m : Mem) (head block : Nat) (fuel : Nat) : Option Nat :=
  find_next_loop m ((block + readW m block + SIZEOF_FREE_BLOCK) % W64) fuel head

/-- `coalesce` (`alloc.c` lines 97–131).  Both neighbours are looked up
first (from the free list rooted at `head`); then the previous-neighbour
merge (growing `prev->size` and patching `prev->next` only when it points
at `block`), then the next-neighbour merge on the possibly updated block.
The C function's return value is dead at its only call site (`tufree`),
so only the memory is returned; `HEAD` is never written by `coalesce`. -/
def coalesce (m : Mem) (head block : Nat) (fuel : Nat) : Mem :=
  if block = 0 then m
  else
    let prev := find_prev m block fuel head
    let next := find_next m head block fuel
    let step1 : Mem × Nat :=
      match prev with
      | none => (m, block)
      | some p =>
        if (p + readW m p + SIZEOF_FREE_BLOCK) % W64 = block then
          let ma := writeW m p (readW m p + readW m block + SIZEOF_FREE_BLOCK)
          let mb := if readW ma (p + 8) = block
                    then writeW ma (p + 8) (readW ma (block + 8)) else ma
          (mb, p)
        else (m, block)
    let m1 := step1.1
    let block1 := step1.2
    match next with
    | none => m1
    | some nx =>
      if (block1 + readW m1 block1 + SIZEOF_FREE_BLOCK) % W64 = nx then
        let mc := writeW m1 block1 (readW m1 block1 + readW m1 nx + SIZEOF_FREE_BLOCK)
        writeW mc (block1 + 8) (readW mc (nx + 8))
      else m1

/-- `do_alloc` (`alloc.c` lines 139–146): `sbrk(size)` returns the old
break and raises it, or fails (returns `none`, modelling `(void *)-1`)
when the OS limit would be exceeded; failure leaves the break unchanged. -/
def do_alloc (size : Nat) (s : AllocState) : Option Nat × AllocState :=
  if s.top + size ≤ s.limit then (some s.top, { s with top := s.top + size })
  else (none, s)

/-- The first-fit scan of `tumalloc` (`alloc.c` lines 159–171): walk the
free list from `curr` with running predecessor `prev` (`0` for none) and
return the first node whose `size` field is at least `need`, together
with its predecessor. -/
def ffScan (m : Mem) (need : Nat) : Nat → Nat → Nat → Option (Nat × Nat)
  | 0, _, _ => none
  | fuel + 1, curr, prev =>
    if curr = 0 then none
    else if need ≤ readW m curr then some (curr, prev)
    else ffScan m need fuel (readW m (curr + 8)) curr

/-- The heap-growth fallback of `tumalloc` (`alloc.c` lines 174–180):
`do_alloc(size + sizeof(size_t))`, stamp the size word at the new region's
start and return the address 8 past it.  `size` is already aligned. -/
def growPath (size : Nat) (s : AllocState) : Option Nat × AllocState :=
  match do_alloc ((size + SIZEOF_SIZE_T) % W64) s with
  | (none, s1) => (none, s1)
  | (some p, s1) => (some ((p + SIZEOF_SIZE_T) % W64), { s1 with mem := writeW s1.mem p size })

/-- `tumalloc` (`alloc.c` lines 154–181): align the size, first-fit scan
with threshold `size + sizeof(free_block)`; on a hit unlink the node
(patching `HEAD` or the predecessor's `next`) and return
`(char *)curr + sizeof(size_t)`; otherwise grow the heap. -/
def tumalloc (fuel : Nat) (size0 : Nat) (s : AllocState) : Option Nat × AllocState :=
  let size := align size0
  match ffScan s.mem ((size + SIZEOF_FREE_BLOCK) % W64) fuel s.head 0 with
  | some (curr, prev) =>
    let s1 := if prev = 0 then { s with head := readW s.mem (curr + 8) }
              else { s with mem := writeW s.mem (prev + 8) (readW s.mem (curr + 8)) }
    (some ((curr + SIZEOF_SIZE_T) % W64), s1)
  | none => growPath size s

/-- `tucalloc` (`alloc.c` lines 189–199): `total_size = num * size` in
wrapping `size_t` arithmetic, delegate to `tumalloc`, zero the region on
success, propagate `NULL` on failure. -/
def tucalloc (fuel : Nat) (num size : Nat) (s : AllocState) : Option Nat × AllocState :=
  let total_size := num * size % W64
  match tumalloc fuel total_size s with
  | (none, s1) => (none, s1)
  | (some p, s1) => (some p, { s1 with mem := memset s1.mem p 0 total_size })

/-- `tufree` (`alloc.c` lines 243–252): `NULL` is a no-op; otherwise the
header is recovered at `ptr - sizeof(size_t)`, the block is pushed onto
the free-list head and `coalesce` is invoked on it. -/
def tufree (fuel : Nat) (ptr : Nat) (s : AllocState) : AllocState :=
  if ptr = 0 then s
  else
    let block := ptr - SIZEOF_SIZE_T
    let m1 := writeW s.mem (block + 8) s.head
    { s with mem := coalesce m1 block block fuel, head := block }

/-- `turealloc` (`alloc.c` lines 208–236): `NULL` behaves as `tumalloc`;
new size `0` frees and returns `NULL`; a covering old size returns the
pointer unchanged; otherwise allocate, copy `old_size` bytes, free the
old block and return the new pointer (or `NULL`, old block untouched, if
the allocation failed). -/
def turealloc (fuel : Nat) (ptr new_size : Nat) (s : AllocState) : Option Nat × AllocState :=
  if ptr = 0 then tumalloc fuel new_size s
  else if new_size = 0 then (none, tufree fuel ptr s)
  else
    let old_size := readW s.mem (ptr - SIZEOF_SIZE_T)
    if new_size ≤ old_size then (some ptr, s)
    else
      match tumalloc fuel new_size s with
      | (none, s1) => (none, s1)
      | (some new_ptr, s1) =>
        let s2 := { s1 with mem := memcpy s1.mem new_ptr ptr old_size }
        (some new_ptr, tufree fuel ptr s2)

/-- The free list rooted at `a` consists exactly of the nodes `ns` (in
list order, each nonnull, ending at `NULL`), read off from memory. -/
def chainB (m : Mem) : Nat → List Nat → Bool
  | a, [] => a == 0
  | a, b :: ns => a == b && (decide (a ≠ 0)) && chainB m (readW m (b + 8)) ns

/-- The nodes of the free list rooted at `a`, collected with fuel. -/
def listNodes (m : Mem) : Nat → Nat → List Nat
  | 0, _ => []
  | fuel + 1, a => if a = 0 then [] else a :: listNodes m fuel (readW m (a + 8))

/-- A fresh allocator state: zeroed memory, empty free list, heap origin
`1024`, OS limit `1000000`. -/
def st0 : AllocState := ⟨fun _ => 0, 0, 1024, 1000000⟩

/-- A memory holding a single free block at `1024` with `size = 64` and
`next = NULL` (the free list consists of that one block). -/
def c5mem : Mem := writeW (writeW (fun _ => 0) 1024 64) 1032 0

/-! ### Memory algebra -/

theorem writeW_out (m : Mem) (a v x : Nat) (h : x < a ∨ a + 8 ≤ x) :
    writeW m a v x = m x := by
  unfold writeW
  split_ifs <;> omega

theorem writeW_at0 (m : Mem) (a v : Nat) : writeW m a v a = v % 256 := by
  unfold writeW
  split_ifs <;> omega

theorem writeW_at1 (m : Mem) (a v : Nat) : writeW m a v (a + 1) = v / 256 % 256 := by
  unfold writeW
  split_ifs <;> omega

theorem writeW_at2 (m : Mem) (a v : Nat) : writeW m a v (a + 2) = v / 65536 % 256 := by
  unfold writeW
  split_ifs <;> omega

theorem writeW_at3 (m : Mem) (a v : Nat) : writeW m a v (a + 3) = v / 16777216 % 256 := by
  unfold writeW
  split_ifs <;> omega

theorem writeW_at4 (m : Mem) (a v : Nat) : writeW m a v (a + 4) = v / 4294967296 % 256 := by
  unfold writeW
  split_ifs <;> omega

theorem writeW_at5 (m : Mem) (a v : Nat) :
    writeW m a v (a + 5) = v / 1099511627776 % 256 := by
  unfold writeW
  split_ifs <;> omega

theorem writeW_at6 (m : Mem) (a v : Nat) :
    writeW m a v (a + 6) = v / 281474976710656 % 256 := by
  unfold writeW
  split_ifs <;> omega

theorem writeW_at7 (m : Mem) (a v : Nat) :
    writeW m a v (a + 7) = v / 72057594037927936 % 256 := by
  unfold writeW
  split_ifs <;> omega

theorem readW_writeW_same (m : Mem) (a v : Nat) : readW (writeW m a v) a = v % W64 := by
  unfold readW
  rw [writeW_at0, writeW_at1, writeW_at2, writeW_at3, writeW_at4, writeW_at5,
      writeW_at6, writeW_at7]
  unfold W64
  omega

theorem readW_writeW_out (m : Mem) (a v b : Nat) (h : b + 8 ≤ a ∨ a + 8 ≤ b) :
    readW (writeW m a v) b = readW m b := by
  unfold readW
  rw [writeW_out m a v b (by omega), writeW_out m a v (b + 1) (by omega),
      writeW_out m a v (b + 2) (by omega), writeW_out m a v (b + 3) (by omega),
      writeW_out m a v (b + 4) (by omega), writeW_out m a v (b + 5) (by omega),
      writeW_out m a v (b + 6) (by omega), writeW_out m a v (b + 7) (by omega)]

theorem readW_lt (m : Mem) (a : Nat) : readW m a < W64 := by
  unfold readW W64
  omega

/-! ### Size alignment -/

theorem align_ge (s : Nat) (h : s + 15 < W64) : s ≤ align s := by
  unfold align W64 at *
  omega

theorem align_le (s : Nat) (h : s + 15 < W64) : align s ≤ s + 15 := by
  unfold align W64 at *
  omega

theorem align_lt (s : Nat) : align s < W64 := by
  unfold align W64
  omega

/-! ### First-fit scan lemmas -/

theorem chainB_ne_zero (m : Mem) :
    ∀ ns a, chainB m a ns = true → ∀ n ∈ ns, n ≠ 0 := by
  intro ns
  induction ns with
  | nil => intro a _ n hn; simp at hn
  | cons b ns ih =>
    intro a hch n hn
    simp only [chainB, Bool.and_eq_true, beq_iff_eq, decide_eq_true_eq] at hch
    obtain ⟨⟨hab, hb0⟩, hrest⟩ := hch
    rcases List.mem_cons.mp hn with h | h
    · subst h; omega
    · exact ih _ hrest n h

theorem ffScan_some_ge (m : Mem) (need : Nat) :
    ∀ fuel curr prev c q, ffScan m need fuel curr prev = some (c, q) →
      need ≤ readW m c := by
  intro fuel
  induction fuel with
  | zero => intro curr prev c q h; simp [ffScan] at h
  | succ n ih =>
    intro curr prev c q h
    unfold ffScan at h
    split at h
    · simp at h
    · split at h
      · rw [Option.some_inj, Prod.mk.injEq] at h
        obtain ⟨rfl, rfl⟩ := h
        assumption
      · exact ih _ _ _ _ h

theorem ffScan_none_of_small (m : Mem) (need : Nat) :
    ∀ ns a prev fuel, chainB m a ns = true →
      (∀ n ∈ ns, readW m n < need) →
      ffScan m need fuel a prev = none := by
  intro ns
  induction ns with
  | nil =>
    intro a prev fuel hch _
    simp only [chainB, beq_iff_eq] at hch
    cases fuel with
    | zero => rfl
    | succ n => unfold ffScan; rw [if_pos hch]
  | cons b ns ih =>
    intro a prev fuel hch hsm
    simp only [chainB, Bool.and_eq_true, beq_iff_eq, decide_eq_true_eq] at hch
    obtain ⟨⟨hab, hb0⟩, hrest⟩ := hch
    subst hab
    cases fuel with
    | zero => rfl
    | succ n =>
      unfold ffScan
      rw [if_neg hb0, if_neg (by exact Nat.not_le.mpr (hsm a (List.mem_cons_self a ns)))]
      exact ih _ _ _ hrest (fun x hx => hsm x (List.mem_cons_of_mem _ hx))

theorem ffScan_some_mem (m : Mem) (need : Nat) :
    ∀ ns a prev fuel c q, chainB m a ns = true → ns.Nodup → prev ∉ ns →
      ffScan m need fuel a prev = some (c, q) →
      c ∈ ns ∧ (q = prev ∨ q ∈ ns) ∧ q ≠ c := by
  intro ns
  induction ns with
  | nil =>
    intro a prev fuel c q hch _ _ h
    simp only [chainB, beq_iff_eq] at hch
    cases fuel with
    | zero => simp [ffScan] at h
    | succ n => unfold ffScan at h; rw [if_pos hch] at h; simp at h
  | cons b ns ih =>
    intro a prev fuel c q hch hnd hpn h
    simp only [chainB, Bool.and_eq_true, beq_iff_eq, decide_eq_true_eq] at hch
    obtain ⟨⟨hab, hb0⟩, hrest⟩ := hch
    subst hab
    cases fuel with
    | zero => simp [ffScan] at h
    | succ n =>
      unfold ffScan at h
      rw [if_neg hb0] at h
      split at h
      · rw [Option.some_inj, Prod.mk.injEq] at h
        obtain ⟨rfl, rfl⟩ := h
        refine ⟨List.mem_cons_self _ _, Or.inl rfl, ?_⟩
        intro hqc
        exact hpn (hqc ▸ List.mem_cons_self _ _)
      · have hnd' := (List.nodup_cons.mp hnd).2
        have hbns := (List.nodup_cons.mp hnd).1
        obtain ⟨hc, hq, hqc⟩ := ih _ _ _ _ _ hrest hnd' hbns h
        refine ⟨List.mem_cons_of_mem _ hc, ?_, hqc⟩
        rcases hq with rfl | hq
        · exact Or.inr (List.mem_cons_self _ _)
        · exact Or.inr (List.mem_cons_of_mem _ hq)

/-! ### Claim C9 -/

/-- C9: `Release(null)` (`tufree(NULL)`) is a no-op leaving the allocator
state unchanged, and `Resize(null, n)` (`turealloc(NULL, n)`) behaves
exactly as a fresh `Allocate(n)` (`tumalloc(n)`): same result and same
state effect, for every fuel, size and state. -/
theorem C9_null_ops (fuel n : Nat) (st : AllocState) :
    tufree fuel 0 st = st ∧ turealloc fuel 0 n st = tumalloc fuel n st := by
  constructor
  · unfold tufree; rw [if_pos rfl]
  · unfold turealloc; rw [if_pos rfl]

/-! ### Claim C7 -/

/-- C7 fails as stated: `n = 0` is no greater than the block's recorded
capacity, yet `turealloc(p, 0)` frees the block and returns `NULL`, not
`p`.  Concretely, after `tumalloc(16)` returns `1032` (capacity 16), the
call `turealloc(1032, 0)` returns `NULL`. -/
theorem C7_counterexample :
    (tumalloc 10 16 st0).1 = some 1032 ∧
    readW (tumalloc 10 16 st0).2.mem (1032 - SIZEOF_SIZE_T) = 16 ∧
    (turealloc 10 1032 0 (tumalloc 10 16 st0).2).1 ≠ some 1032 := by decide

/-- C7 (amended): for every allocated pointer `p ≠ NULL` and new size `n`
with `1 ≤ n` and `n` no greater than the block's recorded capacity,
`turealloc(p, n)` returns `p` itself and the whole allocator state —
memory bytes, free list and heap bound — is unchanged (hence no new
allocation, no copy, and the first `n` bytes at `p` are untouched). -/
theorem C7_inplace (fuel p n : Nat) (st : AllocState)
    (hp : p ≠ 0) (hn : n ≠ 0)
    (hcap : n ≤ readW st.mem (p - SIZEOF_SIZE_T)) :
    turealloc fuel p n st = (some p, st) := by
  simp [turealloc, hp, hn, hcap]

/-- Witness for `C7_inplace` at `p = 1032`, `n = 5` in the state produced
by `tumalloc(16)` from a fresh heap. -/
theorem C7_inplace_witness :
    (1032 : Nat) ≠ 0 ∧ (5 : Nat) ≠ 0 ∧
    5 ≤ readW (tumalloc 10 16 st0).2.mem (1032 - SIZEOF_SIZE_T) ∧
    turealloc 10 1032 5 (tumalloc 10 16 st0).2 = (some 1032, (tumalloc 10 16 st0).2) :=
  ⟨by decide, by decide, by decide,
    C7_inplace 10 1032 5 (tumalloc 10 16 st0).2 (by decide) (by decide) (by decide)⟩

/-! ### Claim C8 -/

/-- C8: when `turealloc(p, n)` needs a larger block (`n` exceeds the
recorded capacity) and the inner allocation fails — no free block passes
the first-fit test and `sbrk` cannot extend the heap — `turealloc`
returns `NULL` and the state is exactly as before the call: the original
block is not freed, its contents are unchanged, and the free list is as
before. -/
theorem C8_realloc_fail (fuel p n : Nat) (st : AllocState)
    (hp : p ≠ 0) (hn : n ≠ 0)
    (hgrow : readW st.mem (p - SIZEOF_SIZE_T) < n)
    (hscan : ffScan st.mem ((align n + SIZEOF_FREE_BLOCK) % W64) fuel st.head 0 = none)
    (hsbrk : st.limit < st.top + (align n + SIZEOF_SIZE_T) % W64) :
    turealloc fuel p n st = (none, st) := by
  have hm : tumalloc fuel n st = (none, st) := by
    simp only [tumalloc, growPath, do_alloc]
    rw [hscan]
    rw [if_neg (by omega)]
  simp [turealloc, hp, hn, Nat.not_le.mpr hgrow, hm]

/-- Witness for `C8_realloc_fail`: fresh state with heap origin `1024`
and OS limit `1030`, pointer `1032`, request `16`. -/
theorem C8_realloc_fail_witness :
    (1032 : Nat) ≠ 0 ∧ (16 : Nat) ≠ 0 ∧
    readW (AllocState.mk (fun _ => 0) 0 1024 1030).mem (1032 - SIZEOF_SIZE_T) < 16 ∧
    turealloc 10 1032 16 (AllocState.mk (fun _ => 0) 0 1024 1030) =
      (none, AllocState.mk (fun _ => 0) 0 1024 1030) :=
  ⟨by decide, by decide, by decide,
    C8_realloc_fail 10 1032 16 (AllocState.mk (fun _ => 0) 0 1024 1030)
      (by decide) (by decide) (by decide) (by decide) (by decide)⟩

/-! ### Claim C6 -/

/-- C6: `tucalloc(num, size)` computes the total as the product
`num * size` in wrapping `size_t` arithmetic (no overflow check) and
delegates it to `tumalloc`.  An allocation failure propagates unchanged
as `NULL` (same result, same state); on success the returned pointer is
the delegated allocation's pointer and every byte of the
`num * size % 2 ^ 64`-byte region at it is zero. -/
theorem C6_tucalloc (fuel num size : Nat) (st : AllocState) :
    ((tumalloc fuel (num * size % W64) st).1 = none →
      tucalloc fuel num size st = tumalloc fuel (num * size % W64) st) ∧
    (∀ p, (tucalloc fuel num size st).1 = some p →
      (tumalloc fuel (num * size % W64) st).1 = some p ∧
      ∀ i, i < num * size % W64 → (tucalloc fuel num size st).2.mem (p + i) = 0) := by
  rcases hr : tumalloc fuel (num * size % W64) st with ⟨r, s1⟩
  constructor
  · intro h
    have h2 : r = none := h
    subst h2
    simp only [tucalloc]
    rw [hr]
  · intro p hp
    simp only [tucalloc] at hp
    rw [hr] at hp
    cases r with
    | none => simp at hp
    | some p' =>
      have hpp : p' = p := by simpa using hp
      subst hpp
      refine ⟨rfl, ?_⟩
      intro i hi
      simp only [tucalloc]
      rw [hr]
      show memset s1.mem p' 0 (num * size % W64) (p' + i) = 0
      simp only [memset]
      rw [if_pos ⟨Nat.le_add_right _ _, by omega⟩]

/-- Witness for `C6_tucalloc`: `tucalloc(2, 3)` on a fresh heap returns
`1032` and the first byte of the 6-byte region is zero. -/
theorem C6_tucalloc_witness :
    (tucalloc 10 2 3 st0).1 = some 1032 ∧ (0 : Nat) < 2 * 3 % W64 ∧
    (tucalloc 10 2 3 st0).2.mem (1032 + 0) = 0 :=
  ⟨by decide, by decide,
    ((C6_tucalloc 10 2 3 st0).2 1032 (by decide)).2 0 (by decide)⟩

/-! ### Claim C5 -/

/-- C5 fails as stated: the remainder block created by `split` is not
present on the free list.  Concretely, splitting the single free block at
`1024` (size 64, `next = NULL`, free list = that block) at target size 16
initialises a remainder block at `1056` (size 32), but the free list
afterwards is still exactly `[1024]`: the split block's `next` still
points past the remainder, which is linked from nothing. -/
theorem C5_counterexample :
    (split c5mem 1024 16).1 = some 1024 ∧
    readW (split c5mem 1024 16).2 1056 = 32 ∧
    readW (split c5mem 1024 16).2 (1024 + 8) = 0 ∧
    listNodes (split c5mem 1024 16).2 10 1024 = [1024] ∧
    1056 ∉ listNodes (split c5mem 1024 16).2 10 1024 := by decide

/-- C5 (amended): applied to a free block and a target size, if the
block's capacity is less than the target plus one header
(`sizeof(free_block)`) then `split` returns `NULL` and leaves memory
unchanged; otherwise it shrinks the block's recorded size to the target,
initialises a remainder block right after the shrunk block holding the
remaining capacity minus one header whose `next` copies the split block's
`next`, and returns the block — but the remainder is NOT inserted into
the free list: the split block's own `next` field is left unchanged, so
no free-list link points at the remainder. -/
theorem C5_split_spec (m : Mem) (block size : Nat)
    (hblk : block + size + SIZEOF_FREE_BLOCK < W64) :
    (readW m block < size + SIZEOF_FREE_BLOCK → split m block size = (none, m)) ∧
    (size + SIZEOF_FREE_BLOCK ≤ readW m block →
      (split m block size).1 = some block ∧
      readW (split m block size).2 block = size ∧
      readW (split m block size).2 (block + size + SIZEOF_FREE_BLOCK) =
        readW m block - size - SIZEOF_FREE_BLOCK ∧
      readW (split m block size).2 (block + size + SIZEOF_FREE_BLOCK + 8) =
        readW m (block + 8) ∧
      readW (split m block size).2 (block + 8) = readW m (block + 8)) := by
  simp only [SIZEOF_FREE_BLOCK] at *
  have hmod : (size + 16) % W64 = size + 16 := Nat.mod_eq_of_lt (by omega)
  have hsp : (block + size + 16) % W64 = block + size + 16 := Nat.mod_eq_of_lt hblk
  constructor
  · intro hsmall
    unfold split
    simp only [SIZEOF_FREE_BLOCK]
    rw [hmod, if_pos hsmall]
  · intro hfit
    unfold split
    simp only [SIZEOF_FREE_BLOCK, hmod, hsp]
    rw [if_neg (Nat.not_lt.mpr hfit)]
    refine ⟨rfl, ?_, ?_, ?_, ?_⟩
    · rw [readW_writeW_same, Nat.mod_eq_of_lt (by omega)]
    · rw [readW_writeW_out _ _ _ _ (Or.inr (by omega)),
          readW_writeW_out _ _ _ _ (Or.inl (by omega)),
          readW_writeW_same,
          Nat.mod_eq_of_lt (by have := readW_lt m block; omega)]
    · rw [readW_writeW_out _ _ _ _ (Or.inr (by omega)),
          readW_writeW_same,
          readW_writeW_out _ _ _ _ (Or.inl (by omega)),
          Nat.mod_eq_of_lt (by have := readW_lt m (block + 8); omega)]
    · rw [readW_writeW_out _ _ _ _ (Or.inr (by omega)),
          readW_writeW_out _ _ _ _ (Or.inl (by omega)),
          readW_writeW_out _ _ _ _ (Or.inl (by omega))]

/-- Witness for `C5_split_spec` on the concrete one-block memory
`c5mem` (block `1024`, capacity 64, target 16): the fitting branch. -/
theorem C5_split_spec_witness :
    (1024 + 16 + SIZEOF_FREE_BLOCK : Nat) < W64 ∧
    (16 + SIZEOF_FREE_BLOCK ≤ readW c5mem 1024) ∧
    readW (split c5mem 1024 16).2 1024 = 16 ∧
    readW (split c5mem 1024 16).2 (1024 + 16 + SIZEOF_FREE_BLOCK) =
      readW c5mem 1024 - 16 - SIZEOF_FREE_BLOCK :=
  ⟨by decide, by decide,
    ((C5_split_spec c5mem 1024 16 (by decide)).2 (by decide)).2.1,
    ((C5_split_spec c5mem 1024 16 (by decide)).2 (by decide)).2.2.1⟩

/-! ### Claim C10 -/

/-- C10: the first-fit scan of `tumalloc` selects a free block only when
its recorded capacity is at least the rounded request plus one full
free-block header (`sizeof(free_block) = 16`); consequently when every
free-list block's capacity is at most the rounded request — in
particular a block whose capacity exactly equals it — no block is
selected and the request falls through to the heap-growth path. -/
theorem C10_firstfit_slack (fuel s0 : Nat) (st : AllocState) (ns : List Nat)
    (hb : align s0 + SIZEOF_FREE_BLOCK < W64)
    (hch : chainB st.mem st.head ns = true) :
    (∀ c q, ffScan st.mem ((align s0 + SIZEOF_FREE_BLOCK) % W64) fuel st.head 0 = some (c, q) →
      align s0 + SIZEOF_FREE_BLOCK ≤ readW st.mem c) ∧
    ((∀ n ∈ ns, readW st.mem n ≤ align s0) →
      tumalloc fuel s0 st = growPath (align s0) st) := by
  have hmod : (align s0 + SIZEOF_FREE_BLOCK) % W64 = align s0 + SIZEOF_FREE_BLOCK :=
    Nat.mod_eq_of_lt hb
  constructor
  · intro c q h
    have hge := ffScan_some_ge _ _ _ _ _ _ _ h
    rw [hmod] at hge
    exact hge
  · intro hsm
    have hnone : ffScan st.mem ((align s0 + SIZEOF_FREE_BLOCK) % W64) fuel st.head 0 = none := by
      apply ffScan_none_of_small _ _ _ _ _ _ hch
      intro n hn
      have h1 := hsm n hn
      rw [hmod]
      simp only [SIZEOF_FREE_BLOCK]
      omega
    simp only [tumalloc]
    rw [hnone]

/-- Witness for `C10_firstfit_slack`: after `tumalloc(16)` and
`tufree(1032)` the free list is the single block `1024` of capacity
exactly `align 16 = 16`; the next `tumalloc(16)` ignores it and takes
the heap-growth path. -/
theorem C10_firstfit_slack_witness :
    (align 16 + SIZEOF_FREE_BLOCK < W64) ∧
    chainB (tufree 10 1032 (tumalloc 10 16 st0).2).mem
      (tufree 10 1032 (tumalloc 10 16 st0).2).head [1024] = true ∧
    readW (tufree 10 1032 (tumalloc 10 16 st0).2).mem 1024 = align 16 ∧
    tumalloc 10 16 (tufree 10 1032 (tumalloc 10 16 st0).2) =
      growPath (align 16) (tufree 10 1032 (tumalloc 10 16 st0).2) :=
  ⟨by decide, by decide, by decide,
    (C10_firstfit_slack 10 16 (tufree 10 1032 (tumalloc 10 16 st0).2) [1024]
      (by decide) (by decide)).2 (by decide)⟩

/-! ### Unfolding helpers for the allocator operations -/

theorem growPath_ok (size : Nat) (s : AllocState)
    (h : s.top + (size + SIZEOF_SIZE_T) % W64 ≤ s.limit) :
    growPath size s = (some ((s.top + SIZEOF_SIZE_T) % W64),
      { s with mem := writeW s.mem s.top size,
               top := s.top + (size + SIZEOF_SIZE_T) % W64 }) := by
  unfold growPath do_alloc
  rw [if_pos h]

theorem growPath_fail (size : Nat) (s : AllocState)
    (h : ¬ s.top + (size + SIZEOF_SIZE_T) % W64 ≤ s.limit) :
    growPath size s = (none, s) := by
  unfold growPath do_alloc
  rw [if_neg h]

theorem tumalloc_scan_none (fuel s0 : Nat) (st : AllocState)
    (h : ffScan st.mem ((align s0 + SIZEOF_FREE_BLOCK) % W64) fuel st.head 0 = none) :
    tumalloc fuel s0 st = growPath (align s0) st := by
  simp only [tumalloc]
  rw [h]

theorem tumalloc_scan_some (fuel s0 c q : Nat) (st : AllocState)
    (h : ffScan st.mem ((align s0 + SIZEOF_FREE_BLOCK) % W64) fuel st.head 0 = some (c, q)) :
    tumalloc fuel s0 st = (some ((c + SIZEOF_SIZE_T) % W64),
      if q = 0 then { st with head := readW st.mem (c + 8) }
      else { st with mem := writeW st.mem (q + 8) (readW st.mem (c + 8)) }) := by
  simp only [tumalloc]
  rw [h]

theorem tufree_eq (fuel ptr : Nat) (st : AllocState) (h : ptr ≠ 0) :
    tufree fuel ptr st = { st with
      mem := coalesce (writeW st.mem (ptr - SIZEOF_SIZE_T + 8) st.head)
               (ptr - SIZEOF_SIZE_T) (ptr - SIZEOF_SIZE_T) fuel,
      head := ptr - SIZEOF_SIZE_T } := by
  simp only [tufree]
  rw [if_neg h]

theorem ffScan_zero (m : Mem) (need fuel prev : Nat) :
    ffScan m need fuel 0 prev = none := by
  cases fuel <;> simp [ffScan]

theorem ffScan_step (m : Mem) (need fuel curr prev : Nat)
    (hc : curr ≠ 0) (hn : ¬ need ≤ readW m curr) :
    ffScan m need (fuel + 1) curr prev = ffScan m need fuel (readW m (curr + 8)) curr := by
  unfold ffScan
  rw [if_neg hc, if_neg hn]
  cases fuel <;> rfl

theorem find_prev_zero (m : Mem) (block fuel : Nat) :
    find_prev m block fuel 0 = none := by
  cases fuel <;> simp [find_prev]

theorem find_prev_step (m : Mem) (block fuel curr : Nat)
    (hc : curr ≠ 0)
    (hne : (curr + readW m curr + SIZEOF_FREE_BLOCK) % W64 ≠ block) :
    find_prev m block (fuel + 1) curr = find_prev m block fuel (readW m (curr + 8)) := by
  unfold find_prev
  rw [if_neg hc, if_neg hne]
  cases fuel <;> rfl

theorem find_next_loop_zero (m : Mem) (e fuel : Nat) :
    find_next_loop m e fuel 0 = none := by
  cases fuel <;> simp [find_next_loop]

theorem find_next_loop_step (m : Mem) (e fuel curr : Nat)
    (hc : curr ≠ 0) (hne : curr ≠ e) :
    find_next_loop m e (fuel + 1) curr = find_next_loop m e fuel (readW m (curr + 8)) := by
  unfold find_next_loop
  rw [if_neg hc, if_neg hne]
  cases fuel <;> rfl

/-! ### Claim C4 -/

/-- C4 fails as stated: from a fresh state whose heap origin `1024` is
itself 16-byte aligned, `tumalloc(16)` succeeds and returns `1032`,
which is ≡ 8 (mod 16): the code aligns only the size, never the address
(the pointer sits `sizeof(size_t) = 8` past the 16-aligned carve). -/
theorem C4_counterexample :
    (tumalloc 10 16 st0).1 = some 1032 ∧ st0.top % ALIGNMENT = 0 ∧
    1032 % ALIGNMENT ≠ 0 := by decide

/-- C4 (amended): for every size `s` (with `s + 31 < 2 ^ 64`) on which
`tumalloc` succeeds from a state with a well-formed free list (a chain of
distinct nodes with pairwise disjoint headers below the address bound),
the returned address `p` is usable for at least `s` bytes: the capacity
recorded in the header at `p - sizeof(size_t)` is at least `s`.  The
16-byte-alignment part of the claim is refuted by `C4_counterexample`. -/
theorem C4_usable (fuel s0 p : Nat) (st st' : AllocState) (ns : List Nat)
    (hbound : s0 + 31 < W64)
    (hlim : st.limit + 16 < W64)
    (hch : chainB st.mem st.head ns = true) (hnd : ns.Nodup)
    (hWn : ∀ n ∈ ns, n + 16 < W64)
    (hsep : ∀ u ∈ ns, ∀ v ∈ ns, u ≠ v → u + 16 ≤ v ∨ v + 16 ≤ u)
    (hres : tumalloc fuel s0 st = (some p, st')) :
    s0 ≤ readW st'.mem (p - SIZEOF_SIZE_T) := by
  have hA1 : align s0 ≤ s0 + 15 := align_le s0 (by omega)
  have hA0 : s0 ≤ align s0 := align_ge s0 (by omega)
  have hAW : align s0 + SIZEOF_FREE_BLOCK < W64 := by
    simp only [SIZEOF_FREE_BLOCK]; omega
  have hmod : (align s0 + SIZEOF_FREE_BLOCK) % W64 = align s0 + SIZEOF_FREE_BLOCK :=
    Nat.mod_eq_of_lt hAW
  cases hscan : ffScan st.mem ((align s0 + SIZEOF_FREE_BLOCK) % W64) fuel st.head 0 with
  | none =>
    rw [tumalloc_scan_none fuel s0 st hscan] at hres
    have hmod8 : (align s0 + SIZEOF_SIZE_T) % W64 = align s0 + SIZEOF_SIZE_T := by
      apply Nat.mod_eq_of_lt
      simp only [SIZEOF_SIZE_T, SIZEOF_FREE_BLOCK] at *
      omega
    by_cases hok : st.top + (align s0 + SIZEOF_SIZE_T) % W64 ≤ st.limit
    · rw [growPath_ok _ _ hok] at hres
      rw [Prod.mk.injEq, Option.some.injEq] at hres
      obtain ⟨hp, hst⟩ := hres
      have htop : (st.top + SIZEOF_SIZE_T) % W64 = st.top + SIZEOF_SIZE_T := by
        apply Nat.mod_eq_of_lt
        simp only [SIZEOF_SIZE_T, SIZEOF_FREE_BLOCK] at *
        omega
      rw [htop] at hp
      have hps : p - SIZEOF_SIZE_T = st.top := by
        simp only [SIZEOF_SIZE_T] at *
        omega
      rw [hps, ← hst]
      simp only
      rw [readW_writeW_same, Nat.mod_eq_of_lt (align_lt s0)]
      exact hA0
    · rw [growPath_fail _ _ hok] at hres
      simp at hres
  | some cq =>
    obtain ⟨c, q⟩ := cq
    rw [tumalloc_scan_some fuel s0 c q st hscan] at hres
    rw [Prod.mk.injEq, Option.some.injEq] at hres
    obtain ⟨hp, hst⟩ := hres
    have h0ns : (0 : Nat) ∉ ns := fun h => chainB_ne_zero st.mem ns st.head hch 0 h rfl
    obtain ⟨hc, hq, hqc⟩ :=
      ffScan_some_mem st.mem _ ns st.head 0 fuel c q hch hnd h0ns hscan
    have hge := ffScan_some_ge st.mem _ fuel st.head 0 c q hscan
    rw [hmod] at hge
    have hcW : c + 16 < W64 := hWn c hc
    have hpc : p = c + SIZEOF_SIZE_T := by
      rw [← hp]
      apply Nat.mod_eq_of_lt
      simp only [SIZEOF_SIZE_T]
      omega
    have hps : p - SIZEOF_SIZE_T = c := by rw [hpc]; omega
    rw [hps, ← hst]
    by_cases hq0 : q = 0
    · rw [if_pos hq0]
      simp only
      simp only [SIZEOF_FREE_BLOCK] at hge
      omega
    · rw [if_neg hq0]
      simp only
      have hqns : q ∈ ns := by
        rcases hq with rfl | h
        · exact absurd rfl hq0
        · exact h
      have hdisj := hsep q hqns c hc hqc
      rw [readW_writeW_out _ _ _ _ (by omega)]
      simp only [SIZEOF_FREE_BLOCK] at hge
      omega

/-- Witness for `C4_usable`: `tumalloc(16)` from the fresh state `st0`
(empty free list) returns `1032` with recorded capacity `16 ≥ 16`. -/
theorem C4_usable_witness :
    (16 : Nat) + 31 < W64 ∧ st0.limit + 16 < W64 ∧
    (tumalloc 10 16 st0).1 = some 1032 ∧
    16 ≤ readW (tumalloc 10 16 st0).2.mem (1032 - SIZEOF_SIZE_T) := by
  refine ⟨by decide, by decide, by decide, ?_⟩
  refine C4_usable 10 16 1032 st0 (tumalloc 10 16 st0).2 [] (by decide) (by decide)
    (by decide) (by decide) (by decide) (by decide) ?_
  have h1 : (tumalloc 10 16 st0).1 = some 1032 := by decide
  calc tumalloc 10 16 st0 = ((tumalloc 10 16 st0).1, (tumalloc 10 16 st0).2) := rfl
    _ = (some 1032, (tumalloc 10 16 st0).2) := by rw [h1]

/-! ### Claim C1 -/

/-- C1 fails as stated: from the empty free list, `tumalloc(16)` returns
`1032`; after `tufree(1032)` the freed block (capacity exactly
`align 16 = 16`) is on the free list, but the next `tumalloc(16)` skips
it — first-fit demands capacity at least `align 16 + sizeof(free_block)`
— and carves a fresh block, returning `1056 ≠ 1032`. -/
theorem C1_counterexample :
    (tumalloc 10 16 st0).1 = some 1032 ∧
    (tufree 10 1032 (tumalloc 10 16 st0).2).head = 1024 ∧
    readW (tufree 10 1032 (tumalloc 10 16 st0).2).mem 1024 = 16 ∧
    (tumalloc 10 16 (tufree 10 1032 (tumalloc 10 16 st0).2)).1 = some 1056 ∧
    (1056 : Nat) ≠ 1032 := by decide

/-! ### Claim C2 -/

/-- C2 is refuted by the code on its own scenario: from a fresh heap,
`tumalloc(32)` returns `A = 1032` (block `[1024, 1064)`) and the next
`tumalloc(32)` returns `B = 1072` (block `[1064, 1104)`), carved
contiguously after `A`'s block.  After `tufree(A)` then `tufree(B)` the
two blocks are NOT coalesced: both stay on the free list with size `32`
each (`coalesce`'s adjacency arithmetic uses a 16-byte header while the
allocation path carves 8-byte headers, so no neighbour test ever
matches).  The subsequent `tumalloc(64 + sizeof(free_block))` request
(aligned size 80) finds no fitting block and extends the heap: it
returns the fresh address `1112` and the break grows from `1104` to
`1192`, contradicting the claimed reuse of the merged span. -/
theorem C2_no_coalesce :
    (tumalloc 10 32 st0).1 = some 1032 ∧
    (tumalloc 10 32 (tumalloc 10 32 st0).2).1 = some 1072 ∧
    (let s4 := tufree 10 1072 (tufree 10 1032 (tumalloc 10 32 (tumalloc 10 32 st0).2).2)
     listNodes s4.mem 10 s4.head = [1064, 1024] ∧
     readW s4.mem 1024 = 32 ∧ readW s4.mem 1064 = 32 ∧
     s4.top = 1104 ∧
     (tumalloc 10 (64 + SIZEOF_FREE_BLOCK) s4).1 = some 1112 ∧
     (tumalloc 10 (64 + SIZEOF_FREE_BLOCK) s4).2.top = 1192) := by decide

/-! ### Claim C3 -/

/-- C3 is refuted by the code: the valid call sequence `tumalloc(16)`
(→ `1032`), `tumalloc(0)` (→ `1056`), `tumalloc(16)` (→ `1064`),
`tufree(1032)`, `tufree(1064)` leaves the free list as `[1056, 1024]`
where `coalesce` has absorbed the newly freed block `1056` into the
address-adjacent block `1024` (its size grew `16 → 48`) yet never
unlinked `1056` — `HEAD` still points at it.  Block `1024` now spans
`[1024, 1024 + 8 + 48) = [1024, 1080)` while block `1056` on the same
list spans `[1056, 1056 + 8 + 16) = [1056, 1080)`: a strict subrange,
violating the claimed invariant (the same holds measuring headers as
`sizeof(free_block) = 16`). -/
theorem C3_subrange_violation :
    (let s := tufree 10 1064 (tufree 10 1032
                (tumalloc 10 16 (tumalloc 10 0 (tumalloc 10 16 st0).2).2).2)
     listNodes s.mem 10 s.head = [1056, 1024] ∧
     readW s.mem 1056 = 16 ∧ readW s.mem 1024 = 48 ∧
     (1024 : Nat) < 1056 ∧
     1056 + SIZEOF_SIZE_T + readW s.mem 1056 ≤ 1024 + SIZEOF_SIZE_T + readW s.mem 1024 ∧
     1056 + SIZEOF_FREE_BLOCK + readW s.mem 1056 ≤
       1024 + SIZEOF_FREE_BLOCK + readW s.mem 1024) := by decide

/-- C1 (amended): starting from an empty free list, for every size `s0 > 0`
(bounded below the word size, with room in the OS limit for two carves),
`tumalloc(s0)` returns `p = top + 8`; after `tufree(p)` puts the block
(capacity exactly `align s0`) on the free list, the next `tumalloc(s0)`
does NOT return `p`: first-fit requires capacity at least
`align s0 + sizeof(free_block)`, so the freed block is skipped and a
fresh block is carved at the heap top, returning `top + align s0 + 16`. -/
theorem C1_amended (f s0 : Nat) (st : AllocState)
    (h0 : 0 < s0) (hb : s0 + 31 < W64)
    (hhead : st.head = 0) (htop : 0 < st.top)
    (hroom : st.top + 2 * (align s0 + 8) ≤ st.limit) (hW : st.limit + 16 < W64) :
    ∃ st1 st2,
      tumalloc (f + 2) s0 st = (some (st.top + 8), st1) ∧
      tumalloc (f + 2) s0 (tufree (f + 2) (st.top + 8) st1) =
        (some (st.top + align s0 + 16), st2) ∧
      st.top + align s0 + 16 ≠ st.top + 8 := by
  have hA0 : s0 ≤ align s0 := align_ge s0 (by omega)
  have hA1 : align s0 ≤ s0 + 15 := align_le s0 (by omega)
  have hmod8 : (align s0 + SIZEOF_SIZE_T) % W64 = align s0 + 8 := by
    simp only [SIZEOF_SIZE_T]
    exact Nat.mod_eq_of_lt (by omega)
  have hmodn : (align s0 + SIZEOF_FREE_BLOCK) % W64 = align s0 + 16 := by
    simp only [SIZEOF_FREE_BLOCK]
    exact Nat.mod_eq_of_lt (by omega)
  -- Step 1: first allocation carves at the heap top.
  have hscan1 : ffScan st.mem ((align s0 + SIZEOF_FREE_BLOCK) % W64) (f + 2) st.head 0 = none := by
    rw [hhead]
    exact ffScan_zero _ _ _ _
  have hok1 : st.top + (align s0 + SIZEOF_SIZE_T) % W64 ≤ st.limit := by
    rw [hmod8]; omega
  have hgrow1 := growPath_ok (align s0) st hok1
  rw [hmod8] at hgrow1
  have hmodt : (st.top + SIZEOF_SIZE_T) % W64 = st.top + 8 := by
    simp only [SIZEOF_SIZE_T]
    exact Nat.mod_eq_of_lt (by omega)
  rw [hmodt, hhead] at hgrow1
  have e1 : tumalloc (f + 2) s0 st =
      (some (st.top + 8),
        AllocState.mk (writeW st.mem st.top (align s0)) 0 (st.top + (align s0 + 8)) st.limit) := by
    rw [tumalloc_scan_none _ _ _ hscan1, hgrow1]
  -- The memory after the free: size word at `top`, next word 0 at `top + 8`.
  have hr1 : readW (writeW (writeW st.mem st.top (align s0)) (st.top + 8) 0) st.top
      = align s0 := by
    rw [readW_writeW_out _ _ _ _ (Or.inl (by omega)), readW_writeW_same,
        Nat.mod_eq_of_lt (align_lt s0)]
  have hr2 : readW (writeW (writeW st.mem st.top (align s0)) (st.top + 8) 0) (st.top + 8)
      = 0 := by
    rw [readW_writeW_same]
    exact Nat.zero_mod _
  -- Step 2: freeing the block pushes it on the list; no coalescing fires.
  have hprev : find_prev (writeW (writeW st.mem st.top (align s0)) (st.top + 8) 0)
      st.top (f + 2) st.top = none := by
    rw [show f + 2 = (f + 1) + 1 from rfl]
    rw [find_prev_step _ _ (f + 1) st.top (by omega) (by
      rw [hr1]
      simp only [SIZEOF_FREE_BLOCK]
      rw [Nat.mod_eq_of_lt (by omega)]
      omega)]
    rw [hr2, find_prev_zero]
  have hnext : find_next (writeW (writeW st.mem st.top (align s0)) (st.top + 8) 0)
      st.top st.top (f + 2) = none := by
    unfold find_next
    rw [hr1]
    simp only [SIZEOF_FREE_BLOCK]
    rw [Nat.mod_eq_of_lt (by omega)]
    rw [show f + 2 = (f + 1) + 1 from rfl]
    rw [find_next_loop_step _ _ (f + 1) st.top (by omega) (by omega)]
    rw [hr2, find_next_loop_zero]
  have hcoal : coalesce (writeW (writeW st.mem st.top (align s0)) (st.top + 8) 0)
      st.top st.top (f + 2) = writeW (writeW st.mem st.top (align s0)) (st.top + 8) 0 := by
    unfold coalesce
    rw [if_neg (show ¬ st.top = 0 by omega)]
    rw [hprev, hnext]
  have e2 : tufree (f + 2) (st.top + 8)
      (AllocState.mk (writeW st.mem st.top (align s0)) 0 (st.top + (align s0 + 8)) st.limit)
      = AllocState.mk (writeW (writeW st.mem st.top (align s0)) (st.top + 8) 0)
          st.top (st.top + (align s0 + 8)) st.limit := by
    unfold tufree
    rw [if_neg (show ¬ st.top + 8 = 0 by omega)]
    dsimp only [SIZEOF_SIZE_T]
    simp only [Nat.add_sub_cancel]
    rw [hcoal]
  -- Step 3: the second allocation skips the freed block and carves afresh.
  have hscan2 : ffScan (writeW (writeW st.mem st.top (align s0)) (st.top + 8) 0)
      ((align s0 + SIZEOF_FREE_BLOCK) % W64) (f + 2) st.top 0 = none := by
    rw [hmodn]
    rw [show f + 2 = (f + 1) + 1 from rfl]
    rw [ffScan_step _ _ (f + 1) st.top 0 (by omega) (by rw [hr1]; omega)]
    rw [hr2, ffScan_zero]
  have hok2 : st.top + (align s0 + 8) + (align s0 + SIZEOF_SIZE_T) % W64 ≤ st.limit := by
    rw [hmod8]; omega
  refine ⟨AllocState.mk (writeW st.mem st.top (align s0)) 0 (st.top + (align s0 + 8)) st.limit,
    AllocState.mk
      (writeW (writeW (writeW st.mem st.top (align s0)) (st.top + 8) 0)
        (st.top + (align s0 + 8)) (align s0))
      st.top (st.top + (align s0 + 8) + (align s0 + 8)) st.limit,
    e1, ?_, by omega⟩
  rw [e2]
  have hg2 := tumalloc_scan_none (f + 2) s0
    (AllocState.mk (writeW (writeW st.mem st.top (align s0)) (st.top + 8) 0)
      st.top (st.top + (align s0 + 8)) st.limit) hscan2
  rw [hg2]
  have hgrow2 := growPath_ok (align s0)
    (AllocState.mk (writeW (writeW st.mem st.top (align s0)) (st.top + 8) 0)
      st.top (st.top + (align s0 + 8)) st.limit) hok2
  rw [hmod8] at hgrow2
  rw [hgrow2]
  have hmodt2 : (st.top + (align s0 + 8) + SIZEOF_SIZE_T) % W64 = st.top + align s0 + 16 := by
    simp only [SIZEOF_SIZE_T]
    rw [Nat.mod_eq_of_lt (by omega)]
    omega
  rw [hmodt2]

/-- Witness for `C1_amended`: `s0 = 16` from the fresh state `st0`
(`top = 1024`): the first allocation returns `1032` and the
re-allocation after the free returns `1056 = 1024 + 16 + 16`. -/
theorem C1_amended_witness :
    0 < 16 ∧ (16 : Nat) + 31 < W64 ∧ st0.head = 0 ∧ 0 < st0.top ∧
    st0.top + 2 * (align 16 + 8) ≤ st0.limit ∧ st0.limit + 16 < W64 ∧
    ∃ st1 st2,
      tumalloc 10 16 st0 = (some (st0.top + 8), st1) ∧
      tumalloc 10 16 (tufree 10 (st0.top + 8) st1) =
        (some (st0.top + align 16 + 16), st2) ∧
      st0.top + align 16 + 16 ≠ st0.top + 8 :=
  ⟨by decide, by decide, by decide, by decide, by decide, by decide,
    C1_amended 8 16 st0 (by decide) (by decide) (by decide) (by decide)
      (by decide) (by decide)⟩
